import Mathlib

/-!
Shallow embedding of the vector charting engine in
`apps/dashboard/src/vendor/recharts.tsx`, together with proofs of the
specified properties of its pure core: numeric coercion, series
extraction, domain computation, coordinate mapping, tick selection,
axis-label derivation, and bar geometry.

JavaScript numbers are modelled as exact rationals extended with the
non-finite values `NaN`, `Infinity` and `-Infinity`; arithmetic on the
extended type propagates the non-finite values the way IEEE / JS
arithmetic does on the expressions that actually occur in the source.
-/

namespace Recharts

/-- A JavaScript number: a finite value (modelled exactly as a rational)
or one of the non-finite values `NaN`, `Infinity`, `-Infinity`. -/
inductive JsNum where
  | fin (q : ℚ)
  | nan
  | posInf
  | negInf
deriving DecidableEq, Repr

namespace JsNum

/-- `Number.isFinite`. -/
def isFinite : JsNum → Bool
  | fin _ => true
  | _ => false

/-- The rational value of a finite JS number (0 on the non-finite values,
where it is never used). -/
def finValue : JsNum → ℚ
  | fin q => q
  | _ => 0

/-- JS subtraction on numbers: `NaN` propagates; infinities follow IEEE. -/
def sub : JsNum → JsNum → JsNum
  | nan, _ => nan
  | _, nan => nan
  | fin a, fin b => fin (a - b)
  | fin _, posInf => negInf
  | fin _, negInf => posInf
  | posInf, fin _ => posInf
  | posInf, posInf => nan
  | posInf, negInf => posInf
  | negInf, fin _ => negInf
  | negInf, posInf => negInf
  | negInf, negInf => nan

/-- JS multiplication on numbers: `NaN` propagates; `Infinity * 0` is `NaN`;
otherwise infinities follow signs. -/
def mul : JsNum → JsNum → JsNum
  | nan, _ => nan
  | _, nan => nan
  | fin a, fin b => fin (a * b)
  | posInf, fin b => if 0 < b then posInf else if b < 0 then negInf else nan
  | negInf, fin b => if 0 < b then negInf else if b < 0 then posInf else nan
  | fin a, posInf => if 0 < a then posInf else if a < 0 then negInf else nan
  | fin a, negInf => if 0 < a then negInf else if a < 0 then posInf else nan
  | posInf, posInf => posInf
  | posInf, negInf => negInf
  | negInf, posInf => negInf
  | negInf, negInf => posInf

/-- JS division on numbers: `NaN` propagates; division of a finite value by
zero gives a signed infinity (`0/0` is `NaN`); infinities divided by finite
values keep their sign; `Infinity / Infinity` is `NaN`. -/
def div : JsNum → JsNum → JsNum
  | nan, _ => nan
  | _, nan => nan
  | fin a, fin b =>
      if b = 0 then (if a = 0 then nan else if 0 < a then posInf else negInf)
      else fin (a / b)
  | fin _, posInf => fin 0
  | fin _, negInf => fin 0
  | posInf, fin b => if 0 ≤ b then posInf else negInf
  | negInf, fin b => if 0 ≤ b then negInf else posInf
  | _, _ => nan

/-- `Math.max` on two JS numbers: `NaN` propagates. -/
def jmax : JsNum → JsNum → JsNum
  | nan, _ => nan
  | _, nan => nan
  | fin a, fin b => fin (max a b)
  | posInf, _ => posInf
  | _, posInf => posInf
  | negInf, b => b
  | fin a, negInf => fin a

end JsNum

/-- A JavaScript value as it may occur in a datum field or an expression:
a number, a string, `undefined`, `null`, a boolean, or a plain object. -/
inductive JsValue where
  | num (n : JsNum)
  | str (s : String)
  | undefined
  | null
  | bool (b : Bool)
  | obj
deriving DecidableEq, Repr

/-- Whether a value is nullish (`null` or `undefined`), as tested by the
JS `??` operator. -/
def JsValue.isNullish : JsValue → Bool
  | .undefined => true
  | .null => true
  | _ => false

/-- The JS nullish-coalescing operator `v ?? w`. -/
def nullishCoalesce (v w : JsValue) : JsValue :=
  if v.isNullish then w else v

/-- Surrounding-whitespace removal on a character list (helper for
`parseNumber`, modelling the whitespace skipping of the JS
StringToNumber conversion). -/
def trimChars (cs : List Char) : List Char :=
  ((cs.dropWhile Char.isWhitespace).reverse.dropWhile Char.isWhitespace).reverse

/-- Models the JS builtin `Number()` conversion of a decimal digit string
(helper for `parseNumber`): `none` when empty or when some character is
not a digit. -/
def parseDigits : List Char → Option ℕ
  | [] => none
  | cs =>
      if cs.all Char.isDigit then
        some (cs.foldl (fun n c => n * 10 + (c.toNat - 48)) 0)
      else none

/-- Split a character list at its first decimal point (helper for
`parseNumber`): the integer part and, when a point is present, the rest. -/
def splitDot : List Char → List Char × Option (List Char)
  | [] => ([], none)
  | c :: rest =>
      if c = '.' then ([], some rest)
      else
        let p := splitDot rest
        (c :: p.1, p.2)

/-- Models the JS builtin `Number()` conversion of an unsigned decimal
numeral, with an optional fractional part (`"5"`, `"5."`, `".5"`,
`"5.25"`); a second decimal point or any non-digit yields `none`. -/
def parseUnsigned (cs : List Char) : Option ℚ :=
  match splitDot cs with
  | (i, none) => (parseDigits i).map (fun n => (n : ℚ))
  | (i, some f) =>
      if i.isEmpty && f.isEmpty then none
      else
        let ip := if i.isEmpty then some 0 else parseDigits i
        let fp := if f.isEmpty then some 0 else parseDigits f
        match ip, fp with
        | some a, some b => some ((a : ℚ) + (b : ℚ) / (10 : ℚ) ^ f.length)
        | _, _ => none

/-- Models the JS builtin `Number()` conversion on strings
(StringToNumber): surrounding whitespace is ignored, the empty string is
0, an optional sign precedes either the literal `Infinity` or a decimal
numeral, and anything else is `NaN`. (Hex and exponent forms are omitted;
no claim depends on them.) -/
def parseNumber (s : String) : JsNum :=
  let t := trimChars s.data
  if t.isEmpty then .fin 0
  else
    let neg : Bool := t.head? = some '-'
    let body : List Char :=
      if t.head? = some '-' || t.head? = some '+' then t.tail else t
    if body = "Infinity".data then (if neg then .negInf else .posInf)
    else
      match parseUnsigned body with
      | some q => .fin (if neg then -q else q)
      | none => .nan

/-- Models the JS builtin `Number()` coercion on arbitrary values:
numbers are unchanged, `undefined` is `NaN`, `null` is 0, booleans are
0/1, strings go through StringToNumber, and a plain object (whose
ToPrimitive yields the string form `"[object Object]"`) is `NaN`. -/
def jsNumberOf : JsValue → JsNum
  | .num n => n
  | .undefined => .nan
  | .null => .fin 0
  | .bool b => .fin (if b then 1 else 0)
  | .str s => parseNumber s
  | .obj => .nan

/-- Models the JS builtin `String()` coercion. Strings, `undefined`,
`null`, booleans and the non-finite numbers print as in JS; finite
integers print exactly; the finite non-integer case falls back to a
`num/den` form (JS prints a decimal expansion there; no claim depends on
it). -/
def jsToString : JsValue → String
  | .str s => s
  | .undefined => "undefined"
  | .null => "null"
  | .bool b => if b then "true" else "false"
  | .obj => "[object Object]"
  | .num .nan => "NaN"
  | .num .posInf => "Infinity"
  | .num .negInf => "-Infinity"
  | .num (.fin q) =>
      if q.den = 1 then
        (if q.num < 0 then "-" ++ q.num.natAbs.repr else q.num.natAbs.repr)
      else q.num.natAbs.repr ++ "/" ++ q.den.repr

/-- `Math.round` on a finite JS number: round half toward positive
infinity. -/
def jsRound (q : ℚ) : ℤ := ⌊q + 1 / 2⌋

/-- A `Datum` (`Record<string, unknown>`): an association list from field
names to values; absent fields read as `undefined`. -/
abbrev Datum := List (String × JsValue)

/-- Property read `row[key]`: the first binding of `key`, `undefined` when
absent. -/
def getField (row : Datum) (key : String) : JsValue :=
  match row.find? (fun p => p.1 = key) with
  | some p => p.2
  | none => .undefined

/-- `interface SeriesProps` (recharts.tsx lines 5-11). -/
structure SeriesProps where
  dataKey : String
  stroke : Option String := none
  fill : Option String := none
  fillOpacity : Option ℚ := none
  name : Option String := none
deriving DecidableEq, Repr

/-- A React child node as seen by `Children.forEach`: either a valid
element carrying its component type's `displayName` and its props, or a
non-element node (text, `null`, …) rejected by `isValidElement`. -/
inductive ReactChild where
  | element (displayName : Option String) (props : SeriesProps)
  | other
deriving DecidableEq, Repr

/-- `const CHART_WIDTH = 960` (line 24). -/
def CHART_WIDTH : ℚ := 960

/-- `const CHART_HEIGHT = 320` (line 25). -/
def CHART_HEIGHT : ℚ := 320

/-- The shape of `CHART_PADDING` (lines 26-31). -/
structure Padding where
  top : ℚ
  right : ℚ
  bottom : ℚ
  left : ℚ
deriving DecidableEq, Repr

/-- `const CHART_PADDING = { top: 20, right: 20, bottom: 52, left: 56 }`. -/
def CHART_PADDING : Padding := ⟨20, 20, 52, 56⟩

/-- JS `Number()` coercion of the `CHART_PADDING` plain object, as
triggered by arithmetic such as `CHART_PADDING * 2`: ToPrimitive on a
plain object yields the string `"[object Object]"`, which converts to
`NaN`. -/
def paddingToNumber (_ : Padding) : JsNum := .nan

/-- `const X_LABEL_LIMIT = 6` (line 32). -/
def X_LABEL_LIMIT : ℕ := 6

/-- `toNumber` (lines 34-37):
`const parsed = Number(value); return Number.isFinite(parsed) ? parsed : 0;`.
A total function into the finite numbers. -/
def toNumber (value : JsValue) : ℚ :=
  let parsed := jsNumberOf value
  if parsed.isFinite then parsed.finValue else 0

/-- `extractSeries` (lines 39-49): iterate over the children with
`Children.forEach`, skip anything that is not a valid element, and push
the props of each element whose component type's `displayName` equals
`typeName`, in iteration order. -/
def extractSeries (children : List ReactChild) (typeName : String) :
    List SeriesProps :=
  children.foldl
    (fun series child =>
      match child with
      | .element displayName props =>
          if displayName = some typeName then series ++ [props] else series
      | .other => series)
    []

/-- `chartY` (lines 51-55). -/
def chartY (value : ℚ) (maxValue : ℚ) : ℚ :=
  if maxValue ≤ 0 then CHART_HEIGHT - CHART_PADDING.bottom
  else
    CHART_HEIGHT - CHART_PADDING.bottom -
      (value / maxValue) * (CHART_HEIGHT - CHART_PADDING.top - CHART_PADDING.bottom)

/-- `chartX` (lines 57-61); `index` and `total` are a data index and the
dataset length, hence naturals. -/
def chartX (index : ℕ) (total : ℕ) : ℚ :=
  if total ≤ 1 then CHART_PADDING.left
  else
    CHART_PADDING.left +
      ((index : ℚ) / ((total : ℚ) - 1)) *
        (CHART_WIDTH - CHART_PADDING.left - CHART_PADDING.right)

/-- The raw label of `getBucketLabel` (line 70):
`String(row.label ?? row.bucket_start ?? index + 1)`. -/
def rawBucketLabel (row : Datum) (index : ℕ) : String :=
  jsToString
    (nullishCoalesce (getField row "label")
      (nullishCoalesce (getField row "bucket_start")
        (.num (.fin ((index : ℚ) + 1)))))

/-- `getBucketLabel` (lines 69-72): the raw label, truncated to its first
10 characters plus `"..."` when longer than 10 characters (line 71). -/
def getBucketLabel (row : Datum) (index : ℕ) : String :=
  let raw := rawBucketLabel row index
  if 10 < raw.length then raw.take 10 ++ "..." else raw

/-- `shouldRenderTick` (lines 74-78); `Math.ceil(total / X_LABEL_LIMIT)`
on a natural `total` is `(total + X_LABEL_LIMIT - 1) / X_LABEL_LIMIT` in
natural division. -/
def shouldRenderTick (index : ℕ) (total : ℕ) : Bool :=
  if total ≤ X_LABEL_LIMIT then true
  else
    let step := (total + X_LABEL_LIMIT - 1) / X_LABEL_LIMIT
    index % step = 0 || index = total - 1

/-- The number of indices of a dataset of length `total` that receive an
axis tick (`renderAxes` renders one tick per index passing
`shouldRenderTick`, lines 136-161). -/
def tickCount (total : ℕ) : ℕ :=
  ((List.range total).filter (fun i => shouldRenderTick i total)).length

/-- The vertical domain computed identically by the three renderers
(lines 215-218, 259-262, 305-308):
`Math.max(1, ...data.flatMap((row) => series.map((s) => toNumber(row[s.dataKey]))))`. -/
def computeDomain (data : List Datum) (series : List SeriesProps) : ℚ :=
  (data.flatMap (fun row => series.map (fun s => toNumber (getField row s.dataKey)))).foldl
    max 1

/-- `usableWidth` in `BarChart` (line 309). -/
def usableWidth : ℚ := CHART_WIDTH - CHART_PADDING.left - CHART_PADDING.right

/-- `groupWidth` in `BarChart` (line 310):
`data.length > 0 ? usableWidth / data.length : usableWidth`. -/
def groupWidth (dataLen : ℕ) : ℚ :=
  if 0 < dataLen then usableWidth / (dataLen : ℚ) else usableWidth

/-- `barWidth` in `BarChart` (line 311):
`bars.length > 0 ? Math.max(groupWidth / (bars.length + 1), 8) : 12`. -/
def barWidth (dataLen seriesLen : ℕ) : ℚ :=
  if 0 < seriesLen then max (groupWidth dataLen / ((seriesLen : ℚ) + 1)) 8 else 12

/-- `baseline` in `BarChart` (line 312). -/
def baseline : ℚ := CHART_HEIGHT - CHART_PADDING.bottom

/-- The bar `height` expression of `BarChart` (line 328), evaluated in JS
number semantics:
`maxValue > 0 ? ((CHART_HEIGHT - CHART_PADDING * 2) * value) / maxValue : 0`.
`CHART_PADDING` is the padding object, so `CHART_PADDING * 2` coerces it
to a number. -/
def barHeightJs (value maxValue : ℚ) : JsNum :=
  if 0 < maxValue then
    (((JsNum.fin CHART_HEIGHT).sub
        ((paddingToNumber CHART_PADDING).mul (.fin 2))).mul (.fin value)).div
      (.fin maxValue)
  else .fin 0

/-- The bar top edge `y = baseline - height` of `BarChart` (line 334), in
JS number semantics. -/
def barTopY (value maxValue : ℚ) : JsNum :=
  (JsNum.fin baseline).sub (barHeightJs value maxValue)

/-- The bar height the specification states: the usable plot height
(`CHART_HEIGHT - top padding - bottom padding`) times `value / domainMax`.
Modelled from the spec for comparison with `barHeightJs`. -/
def specBarHeight (value maxValue : ℚ) : ℚ :=
  (CHART_HEIGHT - CHART_PADDING.top - CHART_PADDING.bottom) * value / maxValue

/-- The value label of one bar in `BarChart` (lines 345-355): rendered
with text `Math.round(value)` when `value > 0`, absent otherwise. -/
def barLabel (value : ℚ) : Option ℤ :=
  if 0 < value then some (jsRound value) else none

/-- The resolved series list the specification describes: exactly the
valid element children whose `displayName` tag matches the renderer's
expected category, kept in declaration order. Stated with `filterMap`
for comparison with the imperative accumulation in `extractSeries`. -/
def extractSeriesSpec (children : List ReactChild) (typeName : String) :
    List SeriesProps :=
  children.filterMap (fun child =>
    match child with
    | .element displayName props =>
        if displayName = some typeName then some props else none
    | .other => none)

section Lemmas

lemma le_foldl_max (l : List ℚ) (a : ℚ) : a ≤ l.foldl max a := by
  induction l generalizing a with
  | nil => exact le_refl a
  | cons x xs ih => exact le_trans (le_max_left a x) (ih (max a x))

lemma le_foldl_max_of_mem {x : ℚ} {l : List ℚ} (hx : x ∈ l) (a : ℚ) :
    x ≤ l.foldl max a := by
  induction l generalizing a with
  | nil => cases hx
  | cons y ys ih =>
      rcases List.mem_cons.mp hx with h | h
      · subst h
        exact le_trans (le_max_right a x) (le_foldl_max ys (max a x))
      · exact ih h (max a y)

lemma foldl_max_eq_or_mem (l : List ℚ) (a : ℚ) :
    l.foldl max a = a ∨ l.foldl max a ∈ l := by
  induction l generalizing a with
  | nil => exact Or.inl rfl
  | cons x xs ih =>
      have hc : (x :: xs).foldl max a = xs.foldl max (max a x) := rfl
      rcases ih (max a x) with h | h
      · rw [hc, h]
        rcases max_choice a x with h2 | h2
        · exact Or.inl h2
        · right
          rw [h2]
          exact List.mem_cons_self x xs
      · right
        rw [hc]
        exact List.mem_cons_of_mem x h

lemma extractSeries_foldl_eq (children : List ReactChild) (typeName : String)
    (acc : List SeriesProps) :
    children.foldl
      (fun series child =>
        match child with
        | .element displayName props =>
            if displayName = some typeName then series ++ [props] else series
        | .other => series)
      acc = acc ++ extractSeriesSpec children typeName := by
  induction children generalizing acc with
  | nil => simp [extractSeriesSpec]
  | cons c cs ih =>
      cases c with
      | element dn props =>
          by_cases h : dn = some typeName
          · simp [extractSeriesSpec, List.filterMap_cons, h, ih]
          · simp [extractSeriesSpec, List.filterMap_cons, h, ih]
      | other => simp [extractSeriesSpec, List.filterMap_cons, ih]

lemma tickCount_le_seven (n : ℕ) : tickCount n ≤ 7 := by
  by_cases hn : n ≤ X_LABEL_LIMIT
  · have hall : (List.range n).filter (fun i => shouldRenderTick i n)
        = List.range n := by
      apply List.filter_eq_self.mpr
      intro a _
      simp [shouldRenderTick, hn]
    have h6 : n ≤ 6 := by simpa [X_LABEL_LIMIT] using hn
    unfold tickCount
    rw [hall, List.length_range]
    omega
  · have hn6 : 6 < n := by simpa [X_LABEL_LIMIT] using not_le.mp hn
    set step := (n + X_LABEL_LIMIT - 1) / X_LABEL_LIMIT with hstepdef
    have hstep : step = (n + 5) / 6 := by
      simp only [hstepdef, X_LABEL_LIMIT]
      omega
    have hstep_pos : 0 < step := by omega
    have hle : n ≤ 6 * step := by omega
    set L : List ℕ := [0, step, 2 * step, 3 * step, 4 * step, 5 * step, n - 1]
      with hL
    have hsub : ∀ i ∈ (List.range n).filter (fun i => shouldRenderTick i n),
        i ∈ L := by
      intro i hi
      have hmem := List.mem_filter.mp hi
      have hin : i < n := List.mem_range.mp hmem.1
      have hp : shouldRenderTick i n = true := hmem.2
      have hp2 : i % step = 0 ∨ i = n - 1 := by
        simpa [shouldRenderTick, hn, ← hstepdef] using hp
      rcases hp2 with hmod | hlast
      · have hdvd : step ∣ i := Nat.dvd_iff_mod_eq_zero.mpr hmod
        have hq : i / step < 6 :=
          (Nat.div_lt_iff_lt_mul hstep_pos).mpr (by omega)
        have hieq : i / step * step = i := Nat.div_mul_cancel hdvd
        set q := i / step with hqdef
        interval_cases q <;> simp [hL, List.mem_cons] <;> omega
      · rw [hL, hlast]
        simp [List.mem_cons]
    have hnodup : ((List.range n).filter (fun i => shouldRenderTick i n)).Nodup :=
      (List.nodup_range n).filter _
    have hlen : ((List.range n).filter (fun i => shouldRenderTick i n)).length
        ≤ L.length := by
      calc ((List.range n).filter (fun i => shouldRenderTick i n)).length
          = ((List.range n).filter (fun i => shouldRenderTick i n)).toFinset.card :=
            (List.toFinset_card_of_nodup hnodup).symm
        _ ≤ L.toFinset.card := by
            apply Finset.card_le_card
            intro x hx
            rw [List.mem_toFinset] at hx ⊢
            exact hsub x hx
        _ ≤ L.length := List.toFinset_card_le L
    have hL7 : L.length = 7 := by rw [hL]; rfl
    unfold tickCount
    omega

lemma jsToString_nat (n : ℕ) :
    jsToString (.num (.fin (n : ℚ))) = Nat.repr n := by
  have hden : ((n : ℚ)).den = 1 := Rat.den_natCast n
  simp only [jsToString, if_pos hden, Rat.num_natCast, Int.natAbs_ofNat]
  rw [if_neg (Int.not_lt.mpr (Int.natCast_nonneg n))]

end Lemmas

/-- C5: numeric coercion is a total function into the finite numbers:
whenever the JS `Number()` conversion of the input is finite, `toNumber`
returns exactly that value, and whenever it is not finite, `toNumber`
returns 0; in particular `NaN`, the infinities, `undefined`, `null` and
non-numeric strings all yield 0, and no input produces an error (the
function is defined on every `JsValue`). -/
theorem toNumber_total_function (v : JsValue) :
    ((jsNumberOf v).isFinite = true → jsNumberOf v = .fin (toNumber v)) ∧
    ((jsNumberOf v).isFinite = false → toNumber v = 0) ∧
    toNumber (.num .nan) = 0 ∧ toNumber (.num .posInf) = 0 ∧
    toNumber (.num .negInf) = 0 ∧ toNumber .undefined = 0 ∧
    toNumber .null = 0 ∧ toNumber (.str "N/A") = 0 := by
  refine ⟨?_, ?_, by decide, by decide, by decide, by decide, by decide,
    by decide⟩
  · intro hf
    cases h : jsNumberOf v with
    | fin q => simp [toNumber, h, JsNum.isFinite, JsNum.finValue]
    | nan => simp [h, JsNum.isFinite] at hf
    | posInf => simp [h, JsNum.isFinite] at hf
    | negInf => simp [h, JsNum.isFinite] at hf
  · intro hf
    cases h : jsNumberOf v with
    | fin q => simp [h, JsNum.isFinite] at hf
    | nan => simp [toNumber, h, JsNum.isFinite]
    | posInf => simp [toNumber, h, JsNum.isFinite]
    | negInf => simp [toNumber, h, JsNum.isFinite]

/-- Witness for C5: evaluation at a finite number and at `Infinity`. -/
theorem toNumber_total_function_witness :
    jsNumberOf (JsValue.num (JsNum.fin 42))
      = JsNum.fin (toNumber (JsValue.num (JsNum.fin 42))) ∧
    toNumber (JsValue.num JsNum.posInf) = 0 :=
  ⟨(toNumber_total_function (JsValue.num (JsNum.fin 42))).1 (by decide),
   (toNumber_total_function (JsValue.num JsNum.posInf)).2.1 (by decide)⟩

/-- C3: the computed vertical domain is at least 1; it bounds every
coerced value of the dataset x series cross-product; it is either 1 or
attained by some coerced value (so it is the cross-product maximum
floored at 1); and an empty dataset or empty series list yields
exactly 1. -/
theorem computeDomain_props (data : List Datum) (series : List SeriesProps) :
    1 ≤ computeDomain data series ∧
    (∀ row ∈ data, ∀ s ∈ series,
      toNumber (getField row s.dataKey) ≤ computeDomain data series) ∧
    (computeDomain data series = 1 ∨
      ∃ row ∈ data, ∃ s ∈ series,
        computeDomain data series = toNumber (getField row s.dataKey)) ∧
    (data = [] → computeDomain data series = 1) ∧
    (series = [] → computeDomain data series = 1) := by
  refine ⟨le_foldl_max _ 1, ?_, ?_, ?_, ?_⟩
  · intro row hrow s hs
    apply le_foldl_max_of_mem
    rw [List.mem_flatMap]
    exact ⟨row, hrow, List.mem_map.mpr ⟨s, hs, rfl⟩⟩
  · rcases foldl_max_eq_or_mem
        (data.flatMap fun row =>
          series.map fun s => toNumber (getField row s.dataKey)) 1 with h | h
    · exact Or.inl h
    · right
      rw [List.mem_flatMap] at h
      obtain ⟨row, hrow, hm⟩ := h
      obtain ⟨s, hs, hval⟩ := List.mem_map.mp hm
      exact ⟨row, hrow, s, hs, hval.symm⟩
  · intro h
    simp [computeDomain, h]
  · intro h
    subst h
    have hnil : ∀ l : List Datum, (l.flatMap fun _ => ([] : List ℚ)) = [] := by
      intro l
      induction l with
      | nil => rfl
      | cons x xs ih => simp [ih]
    simp [computeDomain, hnil]

/-- Witness for C3: a concrete two-point dataset with one series. -/
theorem computeDomain_props_witness :
    toNumber (getField [("v", JsValue.num (JsNum.fin 10))] "v")
      ≤ computeDomain
          [[("v", JsValue.num (JsNum.fin 10))], [("v", JsValue.num (JsNum.fin 20))]]
          [{ dataKey := "v" }] ∧
    computeDomain ([] : List Datum) [{ dataKey := "v" }] = 1 :=
  ⟨(computeDomain_props _ _).2.1 _ (List.mem_cons_self _ _) _
      (List.mem_cons_self _ _),
   (computeDomain_props _ _).2.2.2.1 rfl⟩

/-- C9: series extraction returns exactly the valid element children
whose `displayName` tag equals the requested type name, in declaration
order (the imperative accumulation refines the `filterMap`
specification); when no child matches, the result is the empty list. -/
theorem extractSeries_matches_spec (children : List ReactChild)
    (typeName : String) :
    extractSeries children typeName = extractSeriesSpec children typeName ∧
    ((∀ dn props, ReactChild.element dn props ∈ children →
        dn ≠ some typeName) →
      extractSeries children typeName = []) := by
  have heq : extractSeries children typeName
      = extractSeriesSpec children typeName := by
    simpa [extractSeries] using extractSeries_foldl_eq children typeName []
  refine ⟨heq, ?_⟩
  intro hnone
  rw [heq]
  unfold extractSeriesSpec
  rw [List.filterMap_eq_nil_iff]
  intro c hc
  cases c with
  | element dn props => simp [hnone dn props hc]
  | other => rfl

/-- Witness for C9: extraction keeps the matching bar declaration and
drops the rest; with no matching child the result is empty. -/
theorem extractSeries_matches_spec_witness :
    extractSeries
        [ReactChild.element (some "RechartsBar") { dataKey := "a" },
         ReactChild.other,
         ReactChild.element (some "RechartsLine") { dataKey := "b" }]
        "RechartsBar"
      = extractSeriesSpec
          [ReactChild.element (some "RechartsBar") { dataKey := "a" },
           ReactChild.other,
           ReactChild.element (some "RechartsLine") { dataKey := "b" }]
          "RechartsBar" ∧
    extractSeries [ReactChild.element (some "RechartsLine") { dataKey := "b" }]
        "RechartsBar" = [] :=
  ⟨(extractSeries_matches_spec _ _).1,
   (extractSeries_matches_spec _ _).2 (by
      intro dn props hmem hdn
      subst hdn
      rw [List.mem_singleton] at hmem
      injection hmem with h1 h2
      exact absurd h1 (by decide))⟩

/-- C4: `chartX` is non-decreasing in the index, sends index 0 to the
left padding (56) and the last index to the right edge (940) whenever
`total > 1`, and collapses to the left padding when `total <= 1`;
`chartY` is non-increasing in the value, sends 0 to the baseline (268)
whenever `domainMax > 0`, and collapses to the baseline when
`domainMax <= 0`. -/
theorem coordinate_mapper_props :
    (∀ total : ℕ, 1 < total →
      (∀ i j : ℕ, i ≤ j → chartX i total ≤ chartX j total) ∧
      chartX 0 total = 56 ∧
      chartX (total - 1) total = 940) ∧
    (∀ total : ℕ, total ≤ 1 → ∀ i : ℕ, chartX i total = 56) ∧
    (∀ m : ℚ, 0 < m →
      (∀ v w : ℚ, v ≤ w → chartY w m ≤ chartY v m) ∧
      chartY 0 m = 268) ∧
    (∀ m : ℚ, m ≤ 0 → ∀ v : ℚ, chartY v m = 268) ∧
    CHART_PADDING.left = 56 ∧ CHART_WIDTH - CHART_PADDING.right = 940 ∧
    CHART_HEIGHT - CHART_PADDING.bottom = 268 := by
  have hPAD : CHART_PADDING = ⟨20, 20, 52, 56⟩ := rfl
  refine ⟨?_, ?_, ?_, ?_, rfl, by norm_num [CHART_WIDTH, hPAD],
    by norm_num [CHART_HEIGHT, hPAD]⟩
  · intro total htotal
    have hif : ¬ total ≤ 1 := by omega
    have ht1 : (1 : ℚ) < (total : ℚ) := by exact_mod_cast htotal
    have htpos : (0 : ℚ) < (total : ℚ) - 1 := by linarith
    refine ⟨?_, ?_, ?_⟩
    · intro i j hij
      rw [chartX, chartX, if_neg hif, if_neg hif]
      have hdiv : (i : ℚ) / ((total : ℚ) - 1) ≤ (j : ℚ) / ((total : ℚ) - 1) :=
        div_le_div_of_nonneg_right (by exact_mod_cast hij) htpos.le
      have hmul : (i : ℚ) / ((total : ℚ) - 1) *
            (CHART_WIDTH - CHART_PADDING.left - CHART_PADDING.right)
          ≤ (j : ℚ) / ((total : ℚ) - 1) *
            (CHART_WIDTH - CHART_PADDING.left - CHART_PADDING.right) := by
        apply mul_le_mul_of_nonneg_right hdiv
        norm_num [CHART_WIDTH, hPAD]
      linarith
    · rw [chartX, if_neg hif]
      norm_num [CHART_WIDTH, hPAD]
    · rw [chartX, if_neg hif]
      rw [Nat.cast_sub (by omega : 1 ≤ total), Nat.cast_one]
      rw [div_self (ne_of_gt htpos)]
      norm_num [CHART_WIDTH, hPAD]
  · intro total htotal i
    rw [chartX, if_pos htotal]
    norm_num [hPAD]
  · intro m hm
    have hif : ¬ m ≤ 0 := not_le.mpr hm
    refine ⟨?_, ?_⟩
    · intro v w hvw
      rw [chartY, chartY, if_neg hif, if_neg hif]
      have hdiv : v / m ≤ w / m := div_le_div_of_nonneg_right hvw hm.le
      have hmul : v / m * (CHART_HEIGHT - CHART_PADDING.top - CHART_PADDING.bottom)
          ≤ w / m * (CHART_HEIGHT - CHART_PADDING.top - CHART_PADDING.bottom) := by
        apply mul_le_mul_of_nonneg_right hdiv
        norm_num [CHART_HEIGHT, hPAD]
      linarith
    · rw [chartY, if_neg hif]
      norm_num [CHART_HEIGHT, hPAD]
  · intro m hm v
    rw [chartY, if_pos hm]
    norm_num [CHART_HEIGHT, hPAD]

/-- Witness for C4: the two-point dataset of the spec's acceptance
example. -/
theorem coordinate_mapper_props_witness :
    chartX 0 2 ≤ chartX 1 2 ∧ chartX 0 2 = 56 ∧ chartX 1 2 = 940 ∧
    chartY 0 20 = 268 ∧ chartY 20 20 ≤ chartY 0 20 ∧ chartY 5 0 = 268 :=
  ⟨(coordinate_mapper_props.1 2 (by decide)).1 0 1 (by decide),
   (coordinate_mapper_props.1 2 (by decide)).2.1,
   (coordinate_mapper_props.1 2 (by decide)).2.2,
   (coordinate_mapper_props.2.2.1 20 (by norm_num)).2,
   (coordinate_mapper_props.2.2.1 20 (by norm_num)).1 0 20 (by norm_num),
   coordinate_mapper_props.2.2.2.1 0 (by norm_num) 5⟩

/-- C2: with at most `X_LABEL_LIMIT` points every index is ticked;
otherwise an index is ticked exactly when it is a multiple of the stride
`ceil(total / X_LABEL_LIMIT)` or it is the last index; the number of
ticks never exceeds `X_LABEL_LIMIT + 1`; and the last index is always
ticked. -/
theorem tick_selection (total : ℕ) :
    (total ≤ X_LABEL_LIMIT → ∀ i, i < total → shouldRenderTick i total = true) ∧
    (X_LABEL_LIMIT < total → ∀ i,
      shouldRenderTick i total = true ↔
        (i % ((total + X_LABEL_LIMIT - 1) / X_LABEL_LIMIT) = 0 ∨
          i = total - 1)) ∧
    tickCount total ≤ X_LABEL_LIMIT + 1 ∧
    (0 < total → shouldRenderTick (total - 1) total = true) := by
  refine ⟨?_, ?_, ?_, ?_⟩
  · intro h i _
    simp [shouldRenderTick, h]
  · intro h i
    simp [shouldRenderTick, not_le.mpr h]
  · exact tickCount_le_seven total
  · intro hpos
    by_cases h : total ≤ X_LABEL_LIMIT
    · simp [shouldRenderTick, h]
    · simp [shouldRenderTick, h]

/-- Witness for C2: a 5-point dataset ticks every index; a 13-point
dataset ticks its last index and at most 7 indices overall. -/
theorem tick_selection_witness :
    shouldRenderTick 3 5 = true ∧ shouldRenderTick 12 13 = true ∧
    tickCount 13 ≤ 7 :=
  ⟨(tick_selection 5).1 (by decide) 3 (by decide),
   (tick_selection 13).2.2.2 (by decide),
   (tick_selection 13).2.2.1⟩

/-- C8: the raw axis label prefers the datum's `label` field, then its
`bucket_start` field, then the 1-based index printed as a string; the
rendered label is the raw label truncated to its first 10 characters
plus an ellipsis when longer than 10 characters, and unchanged
otherwise. -/
theorem bucket_label_props (row : Datum) (i : ℕ) :
    ((getField row "label").isNullish = false →
      rawBucketLabel row i = jsToString (getField row "label")) ∧
    ((getField row "label").isNullish = true →
      (getField row "bucket_start").isNullish = false →
      rawBucketLabel row i = jsToString (getField row "bucket_start")) ∧
    ((getField row "label").isNullish = true →
      (getField row "bucket_start").isNullish = true →
      rawBucketLabel row i = Nat.repr (i + 1)) ∧
    (10 < (rawBucketLabel row i).length →
      getBucketLabel row i = (rawBucketLabel row i).take 10 ++ "...") ∧
    ((rawBucketLabel row i).length ≤ 10 →
      getBucketLabel row i = rawBucketLabel row i) := by
  refine ⟨?_, ?_, ?_, ?_, ?_⟩
  · intro h
    simp [rawBucketLabel, nullishCoalesce, h]
  · intro h1 h2
    simp [rawBucketLabel, nullishCoalesce, h1, h2]
  · intro h1 h2
    have hcast : ((i : ℚ) + 1) = ((i + 1 : ℕ) : ℚ) := by push_cast; ring
    simp only [rawBucketLabel, nullishCoalesce, h1, h2, if_pos rfl, hcast]
    exact jsToString_nat (i + 1)
  · intro h
    rw [getBucketLabel]
    simp only [if_pos h]
  · intro h
    rw [getBucketLabel]
    simp only [if_neg (not_lt.mpr h)]

/-- Witness for C8: a long explicit label is truncated; a missing label
falls back to `bucket_start`; a bare datum falls back to the 1-based
index. -/
theorem bucket_label_props_witness :
    rawBucketLabel [("label", JsValue.str "Mondays in January")] 0
      = "Mondays in January" ∧
    getBucketLabel [("label", JsValue.str "Mondays in January")] 0
      = "Mondays in".take 10 ++ "..." ∧
    rawBucketLabel [("bucket_start", JsValue.str "09:00")] 3 = "09:00" ∧
    rawBucketLabel [] 4 = Nat.repr 5 :=
  ⟨(bucket_label_props _ 0).1 (by decide),
   (by
      have h := (bucket_label_props
        [("label", JsValue.str "Mondays in January")] 0).2.2.2.1 (by decide)
      simpa using h),
   (bucket_label_props _ 3).2.1 (by decide) (by decide),
   (bucket_label_props _ 4).2.2.1 (by decide) (by decide)⟩

/-- C7: with at least one resolved bar series, the bar width is
`max(groupWidth / (seriesCount + 1), 8)`, the group width is the usable
plotting width divided by the number of data points (when there is at
least one), and the bar width is never below the minimum of 8. -/
theorem bar_width_props (dataLen seriesLen : ℕ) (hs : 0 < seriesLen) :
    8 ≤ barWidth dataLen seriesLen ∧
    (0 < dataLen →
      barWidth dataLen seriesLen
        = max (groupWidth dataLen / ((seriesLen : ℚ) + 1)) 8 ∧
      groupWidth dataLen = usableWidth / (dataLen : ℚ)) := by
  constructor
  · rw [barWidth, if_pos hs]
    exact le_max_right _ _
  · intro hd
    exact ⟨by rw [barWidth, if_pos hs], by rw [groupWidth, if_pos hd]⟩

/-- Witness for C7: five data points and two bar series. -/
theorem bar_width_props_witness :
    8 ≤ barWidth 5 2 ∧
    barWidth 5 2 = max (groupWidth 5 / (((2 : ℕ) : ℚ) + 1)) 8 :=
  ⟨(bar_width_props 5 2 (by decide)).1,
   ((bar_width_props 5 2 (by decide)).2 (by decide)).1⟩

/-- C1: evaluation of the bar-height expression at the failing input of
the code bug. The source computes
`((CHART_HEIGHT - CHART_PADDING * 2) * value) / maxValue`, but
`CHART_PADDING` is the padding object, so `CHART_PADDING * 2` is `NaN`
and the whole height — and with it the bar's top edge
`y = baseline - height` — is `NaN` for every datum, instead of the
specified `(usable plot height) * value / domainMax` rising from the
baseline. -/
theorem bar_height_nan :
    barHeightJs 5 5 = JsNum.nan ∧
    barTopY 5 5 = JsNum.nan ∧
    specBarHeight 5 5 = 248 ∧
    baseline - specBarHeight 5 5 = 20 ∧
    barHeightJs 5 5 ≠ JsNum.fin (specBarHeight 5 5) := by
  have hpt : CHART_PADDING.top = 20 := rfl
  have hpb : CHART_PADDING.bottom = 52 := rfl
  have h1 : barHeightJs 5 5 = JsNum.nan := by
    have hpos : (0 : ℚ) < 5 := by norm_num
    simp only [barHeightJs, if_pos hpos, paddingToNumber]
    rfl
  have h3 : specBarHeight 5 5 = 248 := by
    simp only [specBarHeight, CHART_HEIGHT, hpt, hpb]
    norm_num
  refine ⟨h1, ?_, h3, ?_, ?_⟩
  · rw [barTopY, h1]
    rfl
  · rw [h3]
    simp only [baseline, CHART_HEIGHT, hpb]
    norm_num
  · rw [h1]
    exact fun h => JsNum.noConfusion h

/-- C6 counterexample: a coerced value of -5 is nonzero, yet the bar
value label is not rendered (`value > 0` fails), contradicting the claim
that a label appears for every nonzero value. -/
theorem bar_label_negative_counterexample :
    toNumber (JsValue.num (JsNum.fin (-5))) ≠ 0 ∧
    barLabel (toNumber (JsValue.num (JsNum.fin (-5)))) = none := by decide

/-- C6 (amended): a rounded value label is rendered above a bar exactly
when the coerced value is strictly positive; zero and negative values
render no label — in particular an all-zero dataset shows no value
labels. -/
theorem bar_label_amended (v : ℚ) :
    (0 < v → barLabel v = some (jsRound v)) ∧
    (v ≤ 0 → barLabel v = none) ∧
    barLabel 0 = none := by
  refine ⟨?_, ?_, by decide⟩
  · intro h
    simp [barLabel, h]
  · intro h
    simp [barLabel, not_lt.mpr h]

/-- Witness for the amended C6: positive, zero and negative values. -/
theorem bar_label_amended_witness :
    barLabel 5 = some (jsRound 5) ∧ jsRound 5 = 5 ∧ barLabel 0 = none ∧
    barLabel (-5) = none :=
  ⟨(bar_label_amended 5).1 (by norm_num),
   by norm_num [jsRound],
   (bar_label_amended 0).2.2,
   (bar_label_amended (-5)).2.1 (by norm_num)⟩

/-- C10: numeric coercion keeps negative finite values unchanged, and a
negative value maps strictly below the baseline (chartY strictly exceeds
the baseline ordinate 268), outside the nominal plotting rectangle. -/
theorem negative_values_below_axis (q v m : ℚ) (_hq : q < 0) (hv : v < 0)
    (hm : 0 < m) :
    toNumber (JsValue.num (JsNum.fin q)) = q ∧
    CHART_HEIGHT - CHART_PADDING.bottom < chartY v m := by
  constructor
  · simp [toNumber, jsNumberOf, JsNum.isFinite, JsNum.finValue]
  · rw [chartY, if_neg (not_le.mpr hm)]
    have hpt : CHART_PADDING.top = 20 := rfl
    have hpb : CHART_PADDING.bottom = 52 := rfl
    have h1 : v / m < 0 := div_neg_of_neg_of_pos hv hm
    have h2 : v / m * (CHART_HEIGHT - CHART_PADDING.top - CHART_PADDING.bottom)
        < 0 := by
      apply mul_neg_of_neg_of_pos h1
      rw [hpt, hpb]
      norm_num [CHART_HEIGHT]
    linarith

/-- Witness for C10: the value -5 with domain maximum 10 is plotted at
ordinate 392, below the baseline 268. -/
theorem negative_values_below_axis_witness :
    toNumber (JsValue.num (JsNum.fin (-5))) = -5 ∧
    CHART_HEIGHT - CHART_PADDING.bottom < chartY (-5) 10 :=
  negative_values_below_axis (-5) (-5) 10 (by norm_num) (by norm_num)
    (by norm_num)

end Recharts
